import Mathlib

/-!
Verification of the filter / aggregate / reshape pipeline of the OpenFoodFacts
dashboard (files app.py and app2.py).

The dashboard is built on pandas; the embedding below reproduces the pandas
semantics of the operations the dashboard uses:

* `DataFrame.isin` and comparison operators treat a missing value (NaN) as
  not matching, so a row with a missing value never passes a filter predicate;
* `DataFrame.groupby` has `sort=True` by default, so group keys appear in the
  output in ascending sorted order of the key (for string keys, Python's
  code-point lexicographic order);
* `mean` aggregation skips missing values and yields a missing value for a
  group whose values are all missing;
* `pd.melt` stacks the value columns one after the other: all rows for the
  first value variable come first, then all rows for the second, and so on;
* `size().unstack().fillna(0)` synthesises an explicit 0 count for a
  (group, subgroup) pair that has no rows, for every subgroup observed
  anywhere in the subset.

Missing numeric values are modelled as `Option ℚ`, missing categorical values
as `Option String` / `Option Int`.
-/

namespace App2

/-! ### Python string order (used by pandas when sorting group keys) -/

/-- Code-point lexicographic strict order on character lists, as Python
compares strings. -/
def strLtb : List Char → List Char → Bool
  | [], [] => false
  | [], _ :: _ => true
  | _ :: _, [] => false
  | a :: as, b :: bs =>
    if a.toNat < b.toNat then true
    else if b.toNat < a.toNat then false
    else strLtb as bs

/-- Python `a <= b` on strings. -/
def strLeb (a b : String) : Bool := !(strLtb b.data a.data)

/-- The order relation on strings used for sorting group keys. -/
def strLe (a b : String) : Prop := strLeb a b = true

instance : DecidableRel strLe := fun a b => instDecidableEqBool (strLeb a b) true

instance : IsTotal String strLe := by
  constructor
  have asymm : ∀ as bs : List Char, strLtb as bs = true → strLtb bs as = false := by
    intro as
    induction as with
    | nil =>
      intro bs h
      cases bs with
      | nil => simp [strLtb] at h
      | cons b bs' => simp [strLtb]
    | cons a as' ih =>
      intro bs h
      cases bs with
      | nil => simp [strLtb] at h
      | cons b bs' =>
        by_cases hab : a.toNat < b.toNat
        · have hba : ¬ b.toNat < a.toNat := by omega
          simp [strLtb, hab, hba]
        · by_cases hba : b.toNat < a.toNat
          · simp [strLtb, hab, hba] at h
          · simp [strLtb, hab, hba] at h ⊢
            exact ih bs' h
  intro a b
  by_cases h : strLtb b.data a.data = true
  · right
    have := asymm _ _ h
    simp [strLe, strLeb, this]
  · left
    simp [strLe, strLeb, Bool.not_eq_true] at h ⊢
    simp [h]

instance : IsTrans String strLe := by
  constructor
  have cotrans :
      ∀ as bs cs : List Char,
        strLtb as cs = true → strLtb as bs = true ∨ strLtb bs cs = true := by
    intro as
    induction as with
    | nil =>
      intro bs cs h
      cases bs with
      | nil => exact Or.inr h
      | cons b bs' => exact Or.inl (by simp [strLtb])
    | cons a as' ih =>
      intro bs cs h
      cases cs with
      | nil => simp [strLtb] at h
      | cons c cs' =>
        cases bs with
        | nil => exact Or.inr (by simp [strLtb])
        | cons b bs' =>
          by_cases hab : a.toNat < b.toNat
          · exact Or.inl (by simp [strLtb, hab])
          · by_cases hbc : b.toNat < c.toNat
            · exact Or.inr (by simp [strLtb, hbc])
            · have hac : ¬ a.toNat < c.toNat := by omega
              by_cases hca : c.toNat < a.toNat
              · simp [strLtb, hac, hca] at h
              · simp [strLtb, hac, hca] at h
                have hba : ¬ b.toNat < a.toNat := by omega
                have hcb : ¬ c.toNat < b.toNat := by omega
                rcases ih bs' cs' h with h' | h'
                · exact Or.inl (by simp [strLtb, hab, hba, h'])
                · exact Or.inr (by simp [strLtb, hbc, hcb, h'])
  intro a b c hab hbc
  simp [strLe, strLeb, Bool.not_eq_true] at hab hbc ⊢
  by_contra h
  rw [Bool.not_eq_false] at h
  rcases cotrans c.data b.data a.data h with h' | h'
  · simp [h'] at hbc
  · simp [h'] at hab

/-! ### Dataset model (app2.py) -/

/-- The fixed country-code to display-name lookup table of
`clean_country_name` in app2.py. -/
def country_map : List (String × String) :=
  [("us", "United States"), ("fr", "France"), ("uk", "United Kingdom"),
   ("de", "Germany"), ("es", "Spain"), ("it", "Italy"), ("cn", "China"),
   ("jp", "Japan"), ("in", "India"), ("br", "Brazil"), ("au", "Australia")]

/-- `clean_country_name` of app2.py: `country_map.get(code, code.upper())`. -/
def clean_country_name (code : String) : String :=
  (country_map.lookup code).getD code.toUpper

/-- One row of the loaded dataframe.  Numeric and categorical columns other
than the country code can hold a missing value (NaN in pandas). -/
structure Row where
  country_code : String
  nutrition_grade : Option String
  nova_group : Option Int
  fat : Option ℚ
  sugars : Option ℚ
  proteins : Option ℚ
  carbs : Option ℚ
  salt : Option ℚ
  deriving DecidableEq, Repr

/-- The derived `country_name` column. -/
def countryName (r : Row) : String := clean_country_name r.country_code

/-- The row predicate of the filter in `update_macronutrient_chart`:
country isin selection, grade isin selection, nova_group within the slider
range.  A NaN grade or NaN nova_group compares as no-match, exactly as
`isin` and `>=` / `<=` behave on NaN in pandas. -/
def rowMatches (countries grades : List String) (lo hi : Int) (r : Row) : Bool :=
  countries.contains r.country_code &&
  (match r.nutrition_grade with
   | some g => grades.contains g
   | none => false) &&
  (match r.nova_group with
   | some n => decide (lo ≤ n) && decide (n ≤ hi)
   | none => false)

/-- `filtered_df` of `update_macronutrient_chart` (app2.py lines 219-222). -/
def filterSubset (rows : List Row) (countries grades : List String) (lo hi : Int) : List Row :=
  rows.filter (rowMatches countries grades lo hi)

/-! ### Aggregation (groupby with pandas default sort=True) -/

/-- The distinct `country_name` keys of a subset, in the order pandas
`groupby('country_name', sort=True)` emits them: ascending string order. -/
def sortedNames (rows : List Row) : List String :=
  List.insertionSort strLe (rows.map countryName).dedup

/-- The rows of one country-name group, in original subset order. -/
def groupOf (rows : List Row) (name : String) : List Row :=
  rows.filter (fun r => countryName r == name)

/-- pandas `mean`: skip missing values; all-missing (or empty) yields a
missing value. -/
def meanOpt (xs : List (Option ℚ)) : Option ℚ :=
  match xs.filterMap id with
  | [] => none
  | v :: vs => some ((v :: vs).sum / (v :: vs).length)

/-- One output row of
`filtered_df.groupby('country_name').agg({... 'mean' ...}).reset_index()`
(app2.py lines 225-234, after the column rename). -/
structure AggRow where
  country : String
  fat : Option ℚ
  sugars : Option ℚ
  proteins : Option ℚ
  carbs : Option ℚ
  salt : Option ℚ
  deriving DecidableEq, Repr

/-- `macro_avg` of `update_macronutrient_chart`: mean of each nutrient per
country-name group, one row per group key, keys in pandas sorted order. -/
def macro_avg (rows : List Row) : List AggRow :=
  (sortedNames rows).map (fun n =>
    ⟨n,
     meanOpt ((groupOf rows n).map (·.fat)),
     meanOpt ((groupOf rows n).map (·.sugars)),
     meanOpt ((groupOf rows n).map (·.proteins)),
     meanOpt ((groupOf rows n).map (·.carbs)),
     meanOpt ((groupOf rows n).map (·.salt))⟩)

/-! ### Reshape (pd.melt) -/

/-- The five renamed metric columns of `macro_avg`. -/
inductive Metric where
  | fat
  | sugars
  | proteins
  | carbs
  | salt
  deriving DecidableEq, Repr

def metricValue (a : AggRow) : Metric → Option ℚ
  | .fat => a.fat
  | .sugars => a.sugars
  | .proteins => a.proteins
  | .carbs => a.carbs
  | .salt => a.salt

/-- One row of the melted dataframe: (Country, Nutrient, Amount). -/
structure TidyRow where
  country : String
  nutrient : Metric
  amount : Option ℚ
  deriving DecidableEq, Repr

/-- `pd.melt(macro_avg, id_vars=['Country'], value_vars=...)` (app2.py lines
237-239): the value columns are stacked one after the other, so the output
holds all aggregate rows for the first metric first, then all aggregate rows
for the second metric, and so on. -/
def melt (aggRows : List AggRow) : List Metric → List TidyRow
  | [] => []
  | v :: vs => aggRows.map (fun a => ⟨a.country, v, metricValue a v⟩) ++ melt aggRows vs

/-- The `value_vars` list used by `update_macronutrient_chart`. -/
def allMetrics : List Metric := [.fat, .sugars, .proteins, .carbs, .salt]

/-- The data the `update_macronutrient_chart` callback hands to the chart:
filter, aggregate to per-country means, melt to tidy form. -/
def update_macronutrient_chart (rows : List Row) (countries grades : List String)
    (lo hi : Int) : List TidyRow :=
  melt (macro_avg (filterSubset rows countries grades lo hi)) allMetrics

/-! ### Percentage-by-group derivation (update_processing_by_country_chart) -/

/-- The filter of `update_processing_by_country_chart` (app2.py lines
645-646): country isin selection and grade isin selection; no nova filter. -/
def filterCountryGrade (rows : List Row) (countries grades : List String) : List Row :=
  rows.filter (fun r =>
    countries.contains r.country_code &&
    (match r.nutrition_grade with
     | some g => grades.contains g
     | none => false))

/-- The columns of `groupby(['country_name','nova_group']).size().unstack()`:
the nova values observed anywhere in the subset, ascending. -/
def novaCols (rows : List Row) : List Int :=
  List.insertionSort (· ≤ ·) (rows.filterMap (·.nova_group)).dedup

/-- The index of the unstacked table: country names with at least one
non-missing nova_group row, ascending. -/
def pctCountries (rows : List Row) : List String :=
  List.insertionSort strLe
    (((rows.filter (fun r => (r.nova_group).isSome)).map countryName).dedup)

/-- Number of rows of a (country, nova) pair in the subset. -/
def countPair (rows : List Row) (c : String) (v : Int) : Nat :=
  (rows.filter (fun r => countryName r == c && r.nova_group == some v)).length

/-- `country_totals` (app2.py line 649): all rows of the country, including
rows with a missing nova_group. -/
def countryTotal (rows : List Row) (c : String) : Nat :=
  (rows.filter (fun r => countryName r == c)).length

/-- One percentage cell: `count / country_totals * 100` (app2.py lines
653-654); an unobserved pair was filled to count 0 by `fillna(0)`. -/
def pctValue (rows : List Row) (c : String) (v : Int) : ℚ :=
  (countPair rows c v : ℚ) / (countryTotal rows c : ℚ) * 100

/-- `nova_by_country` after the percentage loop (app2.py lines 650-656):
one row per country of the unstack index, one cell per observed nova value. -/
def pctTable (rows : List Row) : List (String × List (Int × ℚ)) :=
  (pctCountries rows).map (fun c => (c, (novaCols rows).map (fun v => (v, pctValue rows c v))))

/-! ### Spec-side comparison definitions -/

/-- Group keys in insertion order by first occurrence in the subset.  This
follows the spec's ordering words, for comparison with the sorted key order
the pandas groupby actually emits. -/
def firstOccurrenceKeys (rows : List Row) : List String :=
  (rows.map countryName).foldl (fun acc n => if n ∈ acc then acc else acc ++ [n]) []

/-- Row-major reshape order following the spec's words: one tidy row per
(aggregate row, metric) pair, aggregate-row order first, then metric-list
order.  For comparison with the column-major order `pd.melt` produces. -/
def reshapeRowMajor : List AggRow → List Metric → List TidyRow
  | [], _ => []
  | a :: as, vars =>
    (vars.map fun v => ⟨a.country, v, metricValue a v⟩) ++ reshapeRowMajor as vars

/-- The error the spec's error taxonomy assigns to an invalid facet
selection. -/
inductive SelectionError where
  | invalidSelection
  deriving DecidableEq, Repr

/-- Validating pipeline following the spec's error-handling words: a nova
range with low > high or a bound outside the domain 1..4 is rejected with
InvalidSelectionError before any filtering; a valid range runs the
update_macronutrient_chart pipeline.  For comparison with the code, which
never validates. -/
def validatedChartSpec (rows : List Row) (countries grades : List String) (lo hi : Int) :
    Except SelectionError (List TidyRow) :=
  if 1 ≤ lo ∧ lo ≤ hi ∧ hi ≤ 4 then
    Except.ok (update_macronutrient_chart rows countries grades lo hi)
  else
    Except.error SelectionError.invalidSelection

/-- The missing-value policy of a mean aggregate over one group: a group
whose values for the metric are all missing yields a missing mean (never
zero), and a group with at least one present value yields the mean of the
present values, the missing ones ignored. -/
def nullPolicy (rows : List Row) (c : String) (proj : Row → Option ℚ) (v : Option ℚ) : Prop :=
  ((∀ r ∈ rows, countryName r = c → proj r = none) → v = none) ∧
  ((groupOf rows c).filterMap proj ≠ [] →
    v = some (((groupOf rows c).filterMap proj).sum /
      ((groupOf rows c).filterMap proj).length))

/-! ### Concrete sample data -/

/-- Sample row: us, grade A, nova 1, sugar 2, other nutrients missing. -/
def rowUS1 : Row := ⟨"us", some "A", some 1, none, some 2, none, none, none⟩

/-- Sample row: us, grade B, nova 2, sugar 4, other nutrients missing. -/
def rowUS2 : Row := ⟨"us", some "B", some 2, none, some 4, none, none, none⟩

/-- Sample row: fr, grade A, nova 1, every nutrient missing. -/
def rowFR : Row := ⟨"fr", some "A", some 1, none, none, none, none, none⟩

/-- The spec's end-to-end scenario dataset. -/
def endToEndRows : List Row := [rowUS1, rowUS2, rowFR]

/-- The aggregate row the all-missing France group produces. -/
def aggFrance : AggRow := ⟨"France", none, none, none, none, none⟩

/-- Two concrete aggregate rows for exercising the reshape step. -/
def aggA : AggRow := ⟨"Aland", some 1, some 2, none, none, none⟩

def aggB : AggRow := ⟨"Bland", some 3, some 4, none, none, none⟩

def sampleAggRows : List AggRow := [aggA, aggB]

def sampleMetrics : List Metric := [.fat, .sugars]

/-- Sample subset for the percentage table: Germany has nova groups
1, 1 and 3; France has nova group 2; Germany has no nova-2 row. -/
def rowDE1 : Row := ⟨"de", some "A", some 1, none, none, none, none, none⟩

def rowDE2 : Row := ⟨"de", some "A", some 1, none, none, none, none, none⟩

def rowDE3 : Row := ⟨"de", some "A", some 3, none, none, none, none, none⟩

def rowFR2 : Row := ⟨"fr", some "A", some 2, none, none, none, none, none⟩

def pctRows : List Row := [rowDE1, rowDE2, rowDE3, rowFR2]

/-- Germany-only subset with nova groups 1, 1 and 3 — the spec's zero-fill
test scenario: nova groups 2 and 4 are observed nowhere in the subset. -/
def deOnlyRows : List Row := [rowDE1, rowDE2, rowDE3]

end App2

namespace App

/-! ### Mockup variant (app.py): chart callbacks return hardcoded data -/

/-- `update_nutrition_grade_chart` of app.py (lines 234-278): the bar data is
the hardcoded `grade_data` dict, independent of all three inputs. -/
def update_nutrition_grade_chart (selected_countries : List String)
    (selected_category : String) (nova_range : Int × Int) : List (String × Nat) :=
  [("A", 32), ("B", 45), ("C", 28), ("D", 18), ("E", 7)]

/-- `update_macronutrient_chart` of app.py (lines 287-332): hardcoded
nutrients and values, independent of all three inputs. -/
def update_macronutrient_chart (selected_countries : List String)
    (selected_category : String) (nova_range : Int × Int) : List (String × Nat) :=
  [("Protein", 12), ("Carbs", 38), ("Fat", 18), ("Fiber", 7), ("Sugar", 16), ("Salt", 9)]

end App

open App2

/-! ### Helper lemmas for association-list lookup -/

theorem lookup_eq_of_mem :
    ∀ (l : List (String × String)) (c n : String),
      (l.map Prod.fst).Nodup → (c, n) ∈ l → l.lookup c = some n := by
  intro l
  induction l with
  | nil => intro c n _ h; simp at h
  | cons p l ih =>
    intro c n hnd hm
    obtain ⟨p1, p2⟩ := p
    rcases List.mem_cons.mp hm with h | h
    · obtain ⟨rfl, rfl⟩ := Prod.mk.injEq .. ▸ h
      simp [List.lookup]
    · have hne : c ≠ p1 := by
        rintro rfl
        simp only [List.map_cons, List.nodup_cons] at hnd
        exact hnd.1 (List.mem_map.mpr ⟨(c, n), h, rfl⟩)
      have htl : (l.map Prod.fst).Nodup := by
        simp only [List.map_cons, List.nodup_cons] at hnd
        exact hnd.2
      simp only [List.lookup, beq_eq_false_iff_ne.mpr hne]
      exact ih c n htl h

theorem lookup_eq_none_of_not_mem :
    ∀ (l : List (String × String)) (c : String),
      c ∉ l.map Prod.fst → l.lookup c = none := by
  intro l
  induction l with
  | nil => intro c _; rfl
  | cons p l ih =>
    intro c h
    simp only [List.map_cons, List.mem_cons, not_or] at h
    simp only [List.lookup, beq_eq_false_iff_ne.mpr h.1]
    exact ih c h.2

/-! ### Claim theorems -/

/-- C5: filtering with an empty selected-country set, or with an empty
selected-grade set, returns the empty subset — an empty selection means
"no match", not "match all". -/
theorem claim5_empty_selection :
    ∀ (rows : List App2.Row) (countries grades : List String) (lo hi : Int),
      App2.filterSubset rows [] grades lo hi = [] ∧
      App2.filterSubset rows countries [] lo hi = [] := by
  intro rows countries grades lo hi
  constructor
  · apply List.filter_eq_nil_iff.mpr
    intro r _
    simp [App2.rowMatches]
  · apply List.filter_eq_nil_iff.mpr
    intro r _
    cases h : r.nutrition_grade <;> simp [App2.rowMatches, h]

/-- C6: filtering is idempotent — filtering the filtered subset with the same
selection returns it unchanged — and the filtered subset is a subsequence of
the dataset, preserving the original relative row order (the dataset itself
is a value and is never mutated). -/
theorem claim6_filter_idempotent_sublist :
    ∀ (rows : List App2.Row) (countries grades : List String) (lo hi : Int),
      App2.filterSubset (App2.filterSubset rows countries grades lo hi) countries grades lo hi =
        App2.filterSubset rows countries grades lo hi ∧
      (App2.filterSubset rows countries grades lo hi).Sublist rows := by
  intro rows countries grades lo hi
  constructor
  · exact List.filter_eq_self.mpr (fun r hr => (List.mem_filter.mp hr).2)
  · exact List.filter_sublist rows

/-- C7: a row is in the filtered subset exactly when it is in the dataset and
simultaneously satisfies every active predicate — country in the selection,
grade present and in the selection, nova group present and inside the
inclusive range — and a row with a missing grade or missing nova group never
matches. -/
theorem claim7_filter_conjunction :
    ∀ (rows : List App2.Row) (countries grades : List String) (lo hi : Int) (r : App2.Row),
      (r ∈ App2.filterSubset rows countries grades lo hi ↔
        r ∈ rows ∧ r.country_code ∈ countries ∧
        (∃ g, r.nutrition_grade = some g ∧ g ∈ grades) ∧
        (∃ n, r.nova_group = some n ∧ lo ≤ n ∧ n ≤ hi)) ∧
      ((r.nutrition_grade = none ∨ r.nova_group = none) →
        r ∉ App2.filterSubset rows countries grades lo hi) := by
  intro rows countries grades lo hi r
  constructor
  · rw [App2.filterSubset, List.mem_filter]
    constructor
    · rintro ⟨hr, hm⟩
      simp only [App2.rowMatches, Bool.and_eq_true] at hm
      obtain ⟨⟨h1, h2⟩, h3⟩ := hm
      refine ⟨hr, by simpa using h1, ?_, ?_⟩
      · cases hg : r.nutrition_grade with
        | none => rw [hg] at h2; simp at h2
        | some g => rw [hg] at h2; exact ⟨g, rfl, by simpa using h2⟩
      · cases hn : r.nova_group with
        | none => rw [hn] at h3; simp at h3
        | some n =>
          rw [hn] at h3
          simp only [Bool.and_eq_true, decide_eq_true_eq] at h3
          exact ⟨n, rfl, h3.1, h3.2⟩
    · rintro ⟨hr, hc, ⟨g, hg, hgm⟩, ⟨n, hn, hlo, hhi⟩⟩
      refine ⟨hr, ?_⟩
      simp [App2.rowMatches, hg, hn, hlo, hhi, hc, hgm]
  · rintro (h | h) hmem <;>
      · rw [App2.filterSubset, List.mem_filter] at hmem
        obtain ⟨_, hm⟩ := hmem
        simp [App2.rowMatches, h] at hm

/-- C7 witness: a concrete row satisfying all three predicates is in the
filtered subset. -/
theorem claim7_filter_conjunction_witness :
    App2.rowUS1 ∈ App2.filterSubset [App2.rowUS1] ["us"] ["A"] 1 4 :=
  (claim7_filter_conjunction [App2.rowUS1] ["us"] ["A"] 1 4 App2.rowUS1).1.mpr
    ⟨by decide, by decide, ⟨"A", rfl, by decide⟩, ⟨1, rfl, by decide, by decide⟩⟩

/-- C10: in the mockup variant (app.py), the chart data of both callbacks is
independent of every selection input: any two argument tuples produce the
same hardcoded data. -/
theorem claim10_mock_constant :
    ∀ (c1 c2 : List String) (cat1 cat2 : String) (nr1 nr2 : Int × Int),
      App.update_nutrition_grade_chart c1 cat1 nr1 =
        App.update_nutrition_grade_chart c2 cat2 nr2 ∧
      App.update_macronutrient_chart c1 cat1 nr1 =
        App.update_macronutrient_chart c2 cat2 nr2 :=
  fun _ _ _ _ _ _ => ⟨rfl, rfl⟩

/-- C8 counterexample: with the inverted nova range [3,1] the code does not
reject the call — it proceeds to filter and returns ordinary (empty) chart
data, while the spec's validating pipeline would reject with
InvalidSelectionError; the same dataset and selection with the valid range
[1,4] is non-empty, so the emptiness comes from the inverted range alone. -/
theorem claim8_no_rejection_counterexample :
    App2.update_macronutrient_chart [App2.rowUS1] ["us"] ["A"] 3 1 = [] ∧
    App2.validatedChartSpec [App2.rowUS1] ["us"] ["A"] 3 1 =
      Except.error App2.SelectionError.invalidSelection ∧
    App2.filterSubset [App2.rowUS1] ["us"] ["A"] 1 4 ≠ [] := by
  refine ⟨by decide, ?_, by decide⟩
  rw [App2.validatedChartSpec, if_neg (by decide)]

/-- C8 amended: the code performs no selection validation and defines no
InvalidSelectionError — any call proceeds to filter with the given bounds,
and a range with low > high silently produces an empty subset and hence
empty chart data. -/
theorem claim8_proceeds_to_filter :
    ∀ (rows : List App2.Row) (countries grades : List String) (lo hi : Int),
      hi < lo →
      App2.filterSubset rows countries grades lo hi = [] ∧
      App2.update_macronutrient_chart rows countries grades lo hi = [] := by
  intro rows countries grades lo hi h
  have hf : App2.filterSubset rows countries grades lo hi = [] := by
    apply List.filter_eq_nil_iff.mpr
    intro r _
    simp only [App2.rowMatches, Bool.and_eq_true, not_and]
    rintro ⟨_, _⟩ h3
    cases hn : r.nova_group with
    | none => rw [hn] at h3; simp at h3
    | some n =>
      rw [hn] at h3
      simp only [Bool.and_eq_true, decide_eq_true_eq] at h3
      omega
  refine ⟨hf, ?_⟩
  rw [App2.update_macronutrient_chart, hf]
  rfl

/-- C8 witness: the amended claim at the concrete inverted range [3,1]. -/
theorem claim8_proceeds_witness :
    App2.filterSubset [App2.rowUS1] ["us"] ["A"] 3 1 = [] ∧
    App2.update_macronutrient_chart [App2.rowUS1] ["us"] ["A"] 3 1 = [] :=
  claim8_proceeds_to_filter [App2.rowUS1] ["us"] ["A"] 3 1 (by decide)

/-- C9: the derived country display name is the lookup-table name when the
code is a key of the table, and the upper-cased code otherwise. -/
theorem claim9_country_name_lookup :
    ∀ code name : String,
      ((code, name) ∈ App2.country_map → App2.clean_country_name code = name) ∧
      (code ∉ App2.country_map.map Prod.fst →
        App2.clean_country_name code = code.toUpper) := by
  intro code name
  constructor
  · intro h
    rw [App2.clean_country_name, lookup_eq_of_mem App2.country_map code name (by decide) h]
    rfl
  · intro h
    rw [App2.clean_country_name, lookup_eq_none_of_not_mem App2.country_map code h]
    rfl

/-- C9 witness: a code in the table maps to its table name; a code absent
from the table falls back to the upper-cased code. -/
theorem claim9_country_name_witness :
    App2.clean_country_name "us" = "United States" ∧
    App2.clean_country_name "zz" = "zz".toUpper :=
  ⟨(claim9_country_name_lookup "us" "United States").1 (by decide),
   (claim9_country_name_lookup "zz" "zz").2 (by decide)⟩

/-! ### Helper lemmas for the aggregation step -/

theorem macro_avg_keys (rows : List App2.Row) :
    (App2.macro_avg rows).map App2.AggRow.country = App2.sortedNames rows := by
  rw [App2.macro_avg, List.map_map]
  show List.map (fun n => n) (App2.sortedNames rows) = App2.sortedNames rows
  simp

theorem nullPolicy_meanOpt (rows : List App2.Row) (c : String) (proj : App2.Row → Option ℚ) :
    App2.nullPolicy rows c proj (App2.meanOpt ((App2.groupOf rows c).map proj)) := by
  have hcomp : ((App2.groupOf rows c).map proj).filterMap id =
      (App2.groupOf rows c).filterMap proj := by
    rw [List.filterMap_map]
    rfl
  constructor
  · intro h
    have hnil : (App2.groupOf rows c).filterMap proj = [] := by
      apply List.filterMap_eq_nil_iff.mpr
      intro r hr
      obtain ⟨hr1, hr2⟩ := List.mem_filter.mp hr
      exact h r hr1 (by simpa using hr2)
    simp only [App2.meanOpt, hcomp, hnil]
  · intro hne
    simp only [App2.meanOpt, hcomp]
    cases hvs : (App2.groupOf rows c).filterMap proj with
    | nil => exact absurd hvs hne
    | cons x xs => rfl

/-- C1 counterexample: on the two-row subset [us-row, fr-row] the aggregation
emits the keys in sorted order, France before United States — not in
first-occurrence order, which would put United States first. -/
theorem claim1_key_order_counterexample :
    (App2.macro_avg [App2.rowUS1, App2.rowFR]).map App2.AggRow.country =
      ["France", "United States"] ∧
    App2.firstOccurrenceKeys [App2.rowUS1, App2.rowFR] =
      ["United States", "France"] ∧
    (App2.macro_avg [App2.rowUS1, App2.rowFR]).map App2.AggRow.country ≠
      App2.firstOccurrenceKeys [App2.rowUS1, App2.rowFR] := by
  refine ⟨by decide, by decide, by decide⟩

/-- C1 amended: the aggregation step emits its group keys in ascending
sorted order of the key (pandas groupby default sort=True) — the sorted
distinct country names of the subset — not in first-occurrence insertion
order. -/
theorem claim1_key_order_sorted :
    ∀ rows : List App2.Row,
      ((App2.macro_avg rows).map App2.AggRow.country).Sorted App2.strLe ∧
      ((App2.macro_avg rows).map App2.AggRow.country).Perm
        (rows.map App2.countryName).dedup := by
  intro rows
  rw [macro_avg_keys]
  exact ⟨List.sorted_insertionSort App2.strLe _, List.perm_insertionSort App2.strLe _⟩

/-- C3: every aggregate row of the per-country mean step obeys, for each of
the five metric columns, the missing-value policy: a group with all-missing
values yields a missing mean (never zero, never an error — the aggregation
is total), and otherwise the mean of the present values, missing values
ignored. -/
theorem claim3_null_mean_policy :
    ∀ rows : List App2.Row, ∀ a ∈ App2.macro_avg rows,
      App2.nullPolicy rows a.country (fun r => r.fat) a.fat ∧
      App2.nullPolicy rows a.country (fun r => r.sugars) a.sugars ∧
      App2.nullPolicy rows a.country (fun r => r.proteins) a.proteins ∧
      App2.nullPolicy rows a.country (fun r => r.carbs) a.carbs ∧
      App2.nullPolicy rows a.country (fun r => r.salt) a.salt := by
  intro rows a ha
  obtain ⟨n, _, rfl⟩ := List.mem_map.mp ha
  exact ⟨nullPolicy_meanOpt rows n _, nullPolicy_meanOpt rows n _, nullPolicy_meanOpt rows n _,
         nullPolicy_meanOpt rows n _, nullPolicy_meanOpt rows n _⟩

/-- C3 witness: in the spec's end-to-end dataset the France group has sugar
values [missing] only, and its aggregate sugar mean is missing. -/
theorem claim3_null_mean_witness : App2.aggFrance.sugars = none :=
  ((claim3_null_mean_policy App2.endToEndRows App2.aggFrance (by decide)).2.1).1 (by decide)

/-- C4 counterexample: on the Germany-only subset with nova groups
{1, 1, 3} — the scenario of the spec's zero-fill test — the pairs
(Germany, 2) and (Germany, 4) have zero observed rows, yet the percentage
table's only row carries cells for nova groups 1 and 3 alone: `unstack`
creates a column only for a nova value observed somewhere in the subset, so
a subgroup observed nowhere is not zero-filled — it gets no cell at all,
where the claim demands an explicit 0.0. -/
theorem claim4_zero_fill_counterexample :
    App2.countPair App2.deOnlyRows "Germany" 2 = 0 ∧
    App2.countPair App2.deOnlyRows "Germany" 4 = 0 ∧
    (App2.pctTable App2.deOnlyRows).map (fun e => (e.1, e.2.map Prod.fst)) =
      [("Germany", [1, 3])] := by
  refine ⟨by decide, by decide, by decide⟩

/-- C4 amended: for every subgroup observed somewhere in the filtered subset
(a column of the unstacked table), each percentage cell normalizes the
(country, nova) pair count by the country's total row count into a value
between 0 and 100, and a pair with zero observed rows is an explicit 0 cell
(present in the table row, zero-filled, not missing); a subgroup observed
nowhere in the subset yields no cell at all. -/
theorem claim4_percentage_bounds_zero_fill :
    ∀ (rows : List App2.Row) (c : String) (v : Int),
      c ∈ App2.pctCountries rows → v ∈ App2.novaCols rows →
      (c, (App2.novaCols rows).map (fun w => (w, App2.pctValue rows c w))) ∈
        App2.pctTable rows ∧
      0 ≤ App2.pctValue rows c v ∧ App2.pctValue rows c v ≤ 100 ∧
      (App2.countPair rows c v = 0 → App2.pctValue rows c v = 0) := by
  intro rows c v hc _hv
  have hmem : (c, (App2.novaCols rows).map (fun w => (w, App2.pctValue rows c w))) ∈
      App2.pctTable rows := List.mem_map.mpr ⟨c, hc, rfl⟩
  have htot_pos : 0 < App2.countryTotal rows c := by
    rw [App2.pctCountries, List.mem_insertionSort, List.mem_dedup] at hc
    obtain ⟨r, hr, hrc⟩ := List.mem_map.mp hc
    rw [App2.countryTotal, List.length_pos]
    intro hnil
    have hrmem : r ∈ rows.filter (fun r => App2.countryName r == c) :=
      List.mem_filter.mpr ⟨(List.mem_filter.mp hr).1, by simp [hrc]⟩
    rw [hnil] at hrmem
    simp at hrmem
  have hcnt_le : App2.countPair rows c v ≤ App2.countryTotal rows c := by
    apply List.Sublist.length_le
    apply List.monotone_filter_right
    intro r h
    exact (Bool.and_eq_true .. ▸ h).1
  refine ⟨hmem, ?_, ?_, ?_⟩
  · rw [App2.pctValue]
    positivity
  · rw [App2.pctValue]
    have htotQ : (0:ℚ) < (App2.countryTotal rows c : ℚ) := by exact_mod_cast htot_pos
    have hdiv : ((App2.countPair rows c v : ℚ) / (App2.countryTotal rows c : ℚ)) ≤ 1 := by
      rw [div_le_one htotQ]
      exact_mod_cast hcnt_le
    calc (App2.countPair rows c v : ℚ) / (App2.countryTotal rows c : ℚ) * 100
        ≤ 1 * 100 := mul_le_mul_of_nonneg_right hdiv (by norm_num)
      _ = 100 := by norm_num
  · intro hz
    rw [App2.pctValue, hz]
    simp

/-- C4 witness: in the sample subset, Germany has nova groups 1 and 3 only;
the nova-2 cell for Germany is present in its table row and is exactly 0. -/
theorem claim4_percentage_witness :
    ("Germany", (App2.novaCols App2.pctRows).map
        (fun w => (w, App2.pctValue App2.pctRows "Germany" w))) ∈
      App2.pctTable App2.pctRows ∧
    0 ≤ App2.pctValue App2.pctRows "Germany" 2 ∧
    App2.pctValue App2.pctRows "Germany" 2 ≤ 100 ∧
    (App2.countPair App2.pctRows "Germany" 2 = 0 →
      App2.pctValue App2.pctRows "Germany" 2 = 0) :=
  claim4_percentage_bounds_zero_fill App2.pctRows "Germany" 2 (by decide) (by decide)

/-! ### Helper lemmas for the reshape step -/

theorem melt_nil (vars : List App2.Metric) : App2.melt [] vars = [] := by
  induction vars with
  | nil => rfl
  | cons v vs ih => simp [App2.melt, ih]

theorem melt_cons_perm (a : App2.AggRow) (as : List App2.AggRow) (vars : List App2.Metric) :
    (App2.melt (a :: as) vars).Perm
      ((vars.map fun v => (⟨a.country, v, App2.metricValue a v⟩ : App2.TidyRow)) ++
        App2.melt as vars) := by
  induction vars with
  | nil => simp [App2.melt]
  | cons v vs ih =>
    simp only [App2.melt, List.map_cons, List.cons_append]
    refine List.Perm.cons _ ?_
    exact (List.Perm.append_left _ ih).trans (List.perm_append_comm_assoc _ _ _)

theorem melt_perm_rowMajor (aggRows : List App2.AggRow) (vars : List App2.Metric) :
    (App2.melt aggRows vars).Perm (App2.reshapeRowMajor aggRows vars) := by
  induction aggRows with
  | nil => rw [melt_nil]; simp [App2.reshapeRowMajor]
  | cons a as ih =>
    refine (melt_cons_perm a as vars).trans ?_
    simp only [App2.reshapeRowMajor]
    exact List.Perm.append_left _ ih

theorem melt_getElem (aggRows : List App2.AggRow) :
    ∀ (vars : List App2.Metric) (i j : Nat) (hi : i < vars.length) (hj : j < aggRows.length),
      (App2.melt aggRows vars)[i * aggRows.length + j]? =
        some ⟨(aggRows.get ⟨j, hj⟩).country, vars.get ⟨i, hi⟩,
              App2.metricValue (aggRows.get ⟨j, hj⟩) (vars.get ⟨i, hi⟩)⟩ := by
  intro vars
  induction vars with
  | nil => intro i j hi _; simp at hi
  | cons v vs ih =>
    intro i j hi hj
    cases i with
    | zero =>
      simp only [App2.melt, Nat.zero_mul, Nat.zero_add]
      rw [List.getElem?_append, if_pos (by simpa using hj), List.getElem?_map,
        List.getElem?_eq_getElem hj]
      rfl
    | succ i' =>
      have hidx : (i' + 1) * aggRows.length + j =
          (aggRows.map (fun x =>
            (⟨x.country, v, App2.metricValue x v⟩ : App2.TidyRow))).length +
            (i' * aggRows.length + j) := by
        rw [List.length_map]
        ring
      simp only [App2.melt]
      rw [hidx, List.getElem?_append_right (Nat.le_add_right _ _), Nat.add_sub_cancel_left]
      exact ih i' j (Nat.lt_of_succ_lt_succ hi) hj

/-- C2 counterexample: on two aggregate rows and the metric list
[Fat, Sugars], melt emits the rows column-major — all aggregate rows for Fat
first, then all for Sugars — not in the row-major order the claim states. -/
theorem claim2_reshape_counterexample :
    App2.melt App2.sampleAggRows App2.sampleMetrics =
      [⟨"Aland", .fat, some 1⟩, ⟨"Bland", .fat, some 3⟩,
       ⟨"Aland", .sugars, some 2⟩, ⟨"Bland", .sugars, some 4⟩] ∧
    App2.reshapeRowMajor App2.sampleAggRows App2.sampleMetrics =
      [⟨"Aland", .fat, some 1⟩, ⟨"Aland", .sugars, some 2⟩,
       ⟨"Bland", .fat, some 3⟩, ⟨"Bland", .sugars, some 4⟩] ∧
    App2.melt App2.sampleAggRows App2.sampleMetrics ≠
      App2.reshapeRowMajor App2.sampleAggRows App2.sampleMetrics := by
  refine ⟨?_, ?_, ?_⟩ <;> decide

/-- C2 amended: melt emits exactly one tidy row per (aggregate row, metric)
pair — the same multiset of tidy rows as the row-major reading, a missing
metric value still emitted as a row — but ordered first by metric-list order
and then by aggregate-row order: the row for metric i and aggregate row j
sits at position i * (number of aggregate rows) + j. -/
theorem claim2_reshape_characterization :
    ∀ (aggRows : List App2.AggRow) (vars : List App2.Metric),
      (App2.melt aggRows vars).Perm (App2.reshapeRowMajor aggRows vars) ∧
      ∀ (i j : Nat) (hi : i < vars.length) (hj : j < aggRows.length),
        (App2.melt aggRows vars)[i * aggRows.length + j]? =
          some ⟨(aggRows.get ⟨j, hj⟩).country, vars.get ⟨i, hi⟩,
                App2.metricValue (aggRows.get ⟨j, hj⟩) (vars.get ⟨i, hi⟩)⟩ :=
  fun aggRows vars =>
    ⟨melt_perm_rowMajor aggRows vars,
     fun i j hi hj => melt_getElem aggRows vars i j hi hj⟩

/-- C2 witness: position 1 * 2 + 0 = 2 of the melted sample holds the tidy
row of the first aggregate row and the second metric. -/
theorem claim2_reshape_witness :
    (App2.melt App2.sampleAggRows App2.sampleMetrics)[2]? =
      some ⟨"Aland", App2.Metric.sugars, App2.aggA.sugars⟩ :=
  (claim2_reshape_characterization App2.sampleAggRows App2.sampleMetrics).2 1 0
    (by decide) (by decide)
